import Mathlib

set_option autoImplicit false

/-!
Verification development for the stocksBackend HTTP service (src/main.go).

The Go program is shallowly embedded: Go strings are `List Char` (Go's
byte-wise lexicographic string comparison on the provider's ASCII dates
coincides with the `List Char` lexicographic order), the SQL table
`stock_data` is a `List Row`, and each SQL statement of the program is
translated to a pure function on that list.  Outcomes of the outside world
(environment variables, the upstream HTTP responses, database-connection
failures) are passed in explicitly as parameters, and the handlers return
the HTTP status, the response body and an effect count (upstream
invocations, database reads/writes) alongside the new table state.
-/

namespace StocksBackend

/-- A Go string: its list of characters.  Dates are strings of the shape
`YYYY-MM-DD`, for which Go's lexicographic string order agrees with
chronological order. -/
abbrev GoStr := List Char

/-- One entry of the `Time Series (Daily)` JSON object: the five
string-encoded fields, as in the Go struct `TimeSeriesResponse`. -/
structure DailyRaw where
  Open : GoStr
  High : GoStr
  Low : GoStr
  Close : GoStr
  Volume : GoStr
deriving DecidableEq, Repr

/-- The decoded provider document (struct `TimeSeriesResponse`).  The Go
field `TimeSeriesDaily` is a `map[string]...`; the map is embedded as an
association list.  The unused `MetaData` field is omitted. -/
structure TimeSeriesResponse where
  TimeSeriesDaily : List (GoStr × DailyRaw)
deriving DecidableEq, Repr

/-- An exact decimal number `mantissa / 10 ^ scale`, the result of parsing
one of the provider's decimal price strings. -/
structure Decimal where
  mantissa : Nat
  scale : Nat
deriving DecidableEq, Repr

/-- Parse a non-empty all-digit string as a natural number.  This models
`strconv.Atoi` restricted to the provider's non-negative integer format:
a string with a non-digit character (or the empty string) fails. -/
def digitsToNat : GoStr → Option Nat
  | [] => none
  | cs => cs.foldlM (fun acc c => if c.isDigit then some (acc * 10 + (c.toNat - 48)) else none) 0

/-- Parse a decimal price string, modelling `strconv.ParseFloat` on the
provider's price format `digits` or `digits.digits`; any other string
(in particular one with a non-numeric character) fails.  The value is kept
exactly as a `Decimal`. -/
def parseFloat? (s : GoStr) : Option Decimal :=
  match s.span (fun c => !(c == '.')) with
  | (intPart, []) => (digitsToNat intPart).map (fun n => ⟨n, 0⟩)
  | (intPart, _dot :: frac) =>
      match digitsToNat intPart, digitsToNat frac with
      | some x, some y => some ⟨x * 10 ^ frac.length + y, frac.length⟩
      | _, _ => none

/-- One row of the `stock_data` table: primary key `(date, symbol)`,
numeric columns `open/high/low/close`, integer `volume`, and the
`last_updated` timestamp. -/
structure Row where
  date : GoStr
  symbol : GoStr
  Open : Decimal
  High : Decimal
  Low : Decimal
  Close : Decimal
  Volume : Nat
  last_updated : Nat
deriving DecidableEq, Repr

/-- `SELECT COUNT(*) FROM stock_data WHERE symbol = $1`. -/
def countRows (db : List Row) (symbol : GoStr) : Nat :=
  (db.filter (fun r => decide (r.symbol = symbol))).length

/-- Fold computing the running maximum, as SQL's `MAX` aggregate:
`none` on an empty set of rows (SQL `NULL`). -/
def maxAux (acc : Option GoStr) : List GoStr → Option GoStr
  | [] => acc
  | d :: rest => maxAux (match acc with | none => some d | some m => some (max m d)) rest

/-- `SELECT MAX(date) FROM stock_data WHERE symbol = $1`; `none` models the
SQL `NULL` scanned into an invalid `sql.NullString`. -/
def maxDate (db : List Row) (symbol : GoStr) : Option GoStr :=
  maxAux none ((db.filter (fun r => decide (r.symbol = symbol))).map (fun r => r.date))

/-- The prepared statement of `fetchAndStoreData`:
`INSERT INTO stock_data ... ON CONFLICT (date, symbol) DO UPDATE SET`
all non-key columns from the excluded row and `last_updated = now()`.
If a row with the key exists it is updated in place, otherwise the new row
is appended. -/
def upsertRow (db : List Row) (row : Row) : List Row :=
  if db.any (fun r => decide (r.date = row.date ∧ r.symbol = row.symbol)) then
    db.map (fun r =>
      if r.date = row.date ∧ r.symbol = row.symbol then
        { r with Open := row.Open, High := row.High, Low := row.Low,
                 Close := row.Close, Volume := row.Volume,
                 last_updated := row.last_updated }
      else r)
  else db ++ [row]

/-- `SELECT` of the single row with the given primary key, used to state
properties of the table. -/
def lookupRow (db : List Row) (date : GoStr) (symbol : GoStr) : Option Row :=
  db.find? (fun r => decide (r.date = date ∧ r.symbol = symbol))

/-- The five per-date field conversions of `fetchAndStoreData`
(`strconv.ParseFloat` for open/high/low/close, `strconv.Atoi` for volume);
in the Go loop each failure `continue`s, so a date is converted exactly
when every one of its five fields parses. -/
def parseDaily (sd : DailyRaw) : Option (Decimal × Decimal × Decimal × Decimal × Nat) :=
  match parseFloat? sd.Open, parseFloat? sd.High, parseFloat? sd.Low,
        parseFloat? sd.Close, digitsToNat sd.Volume with
  | some o, some h, some l, some c, some v => some (o, h, l, c, v)
  | _, _, _, _, _ => none

/-- The row passed to `stmt.Exec` for one parsed date. -/
def toRow (symbol : GoStr) (now : Nat) (dateStr : GoStr)
    (p : Decimal × Decimal × Decimal × Decimal × Nat) : Row :=
  ⟨dateStr, symbol, p.1, p.2.1, p.2.2.1, p.2.2.2.1, p.2.2.2.2, now⟩

/-- The skip test `latestDate.Valid && dateStr <= latestDate.String` of the
store loop. -/
def skipDate (latest : Option GoStr) (dateStr : GoStr) : Bool :=
  match latest with
  | some m => decide (dateStr ≤ m)
  | none => false

/-- The `for dateStr, stockData := range data.TimeSeriesDaily` loop of
`fetchAndStoreData`: skip dates at or below the watermark, skip dates with
a field parse failure, upsert the rest and count them. -/
def storeLoop (symbol : GoStr) (now : Nat) (latest : Option GoStr) :
    List (GoStr × DailyRaw) → List Row → Nat → List Row × Nat
  | [], db, acc => (db, acc)
  | (dateStr, sd) :: rest, db, acc =>
    if skipDate latest dateStr then storeLoop symbol now latest rest db acc
    else
      match parseDaily sd with
      | none => storeLoop symbol now latest rest db acc
      | some p => storeLoop symbol now latest rest (upsertRow db (toRow symbol now dateStr p)) (acc + 1)

/-- The outcome of one HTTP attempt of `fetchStockData`: a transport error
(`e != nil`), a non-success HTTP status (`resp.IsError()`), or a decoded
success body. -/
inductive AttemptOutcome where
  | netErr (msg : GoStr)
  | httpErr (status : GoStr)
  | ok (data : TimeSeriesResponse)
deriving DecidableEq, Repr

/-- Whether the attempt outcome is one of the two failure cases. -/
def AttemptOutcome.isFail : AttemptOutcome → Bool
  | .ok _ => false
  | _ => true

/-- The error built by `fmt.Errorf("attempt %d: ...", attempt, ...)` in
`fetchStockData`: the attempt number together with the failing attempt's
detail (the transport error or the HTTP status it formats). -/
structure FetchError where
  attempt : Nat
  detail : AttemptOutcome
deriving DecidableEq, Repr

/-- The observable result of `fetchStockData`: the decoded body (if any),
the pending error (if any), the number of HTTP attempts made, and the list
of `time.Sleep(attempt * time.Second)` durations, in seconds, in order. -/
structure FetchState where
  result : Option TimeSeriesResponse
  err : Option FetchError
  attemptsMade : Nat
  sleeps : List Nat
deriving DecidableEq, Repr

/-- The `for attempt := 1; attempt <= 3; attempt++` loop of
`fetchStockData`: on a failed attempt record the error, sleep `attempt`
seconds and continue; on success store the result, clear the error and
break. -/
def fetchLoop (outcomes : Nat → AttemptOutcome) : List Nat → FetchState → FetchState
  | [], st => st
  | attempt :: rest, st =>
    match outcomes attempt with
    | .ok d => { st with result := some d, err := none, attemptsMade := st.attemptsMade + 1 }
    | o => fetchLoop outcomes rest
        { st with err := some ⟨attempt, o⟩, attemptsMade := st.attemptsMade + 1,
                  sleeps := st.sleeps ++ [attempt] }

/-- `fetchStockData`: up to 3 attempts against the provider, with linear
backoff.  The schedule `outcomes` gives the result of each HTTP attempt. -/
def fetchStockData (outcomes : Nat → AttemptOutcome) : FetchState :=
  fetchLoop outcomes [1, 2, 3] ⟨none, none, 0, []⟩

/-- The `data, err := fetchStockData(...)` call site of `fetchAndStoreData`
seen as an `Except`.  The final fallback is unreachable: the loop always
runs at least one attempt, so either `err` or `result` is set. -/
def fetchExcept (outcomes : Nat → AttemptOutcome) : Except FetchError TimeSeriesResponse :=
  let st := fetchStockData outcomes
  match st.err with
  | some e => .error e
  | none =>
    match st.result with
    | some d => .ok d
    | none => .error ⟨0, .netErr []⟩

/-- The request-fatal errors of `fetchAndStoreData`, in the order the code
can raise them. -/
inductive RefreshError where
  | missingApiKey
  | fetchFailed (e : FetchError)
  | latestDateQueryFailed
deriving DecidableEq, Repr

/-- Counts of the side effects performed by a handler invocation:
invocations of the upstream fetch chain (each making up to 3 HTTP
attempts), reads of the `stock_data` table, and row writes to it. -/
structure Effects where
  upstreamCalls : Nat
  dbReads : Nat
  dbWrites : Nat
deriving DecidableEq, Repr

/-- The parameters `fetchAndStoreData` draws from the outside world: the
`ALPHA_VANTAGE_API_KEY` environment variable (`none` models the empty
value), the outcome of the upstream fetch, whether the `SELECT MAX(date)`
round-trip succeeds, and the database clock `now()`. -/
structure RefreshEnv where
  apiKey : Option GoStr
  fetchResult : Except FetchError TimeSeriesResponse
  maxQueryOk : Bool
  now : Nat

/-- The value of one `fetchAndStoreData` call: the table afterwards, the
returned `newRecords` count, the returned error, and the effect counts. -/
structure RefreshResult where
  db : List Row
  newRecords : Nat
  err : Option RefreshError
  effects : Effects
deriving DecidableEq, Repr

/-- `fetchAndStoreData`: check the API key, fetch upstream, read the
watermark `MAX(date)`, then run the store loop.  Each fatal failure
returns `(0, err)` with the table untouched. -/
def fetchAndStoreData (env : RefreshEnv) (db : List Row) (symbol : GoStr) : RefreshResult :=
  match env.apiKey with
  | none => ⟨db, 0, some .missingApiKey, ⟨0, 0, 0⟩⟩
  | some _ =>
    match env.fetchResult with
    | .error e => ⟨db, 0, some (.fetchFailed e), ⟨1, 0, 0⟩⟩
    | .ok data =>
      if env.maxQueryOk then
        let latest := maxDate db symbol
        let res := storeLoop symbol env.now latest data.TimeSeriesDaily db 0
        ⟨res.1, res.2, none, ⟨1, 1, res.2⟩⟩
      else ⟨db, 0, some .latestDateQueryFailed, ⟨1, 1, 0⟩⟩

/-- The observable value of a `POST /api/stocks/{symbol}/refresh` response:
HTTP status, the `newRecords` field of the JSON body (absent on error),
and the table afterwards. -/
structure RefreshHttpResult where
  status : Nat
  newRecords : Option Nat
  db : List Row
deriving DecidableEq, Repr

/-- `refreshStockDataHandler`: run `fetchAndStoreData`; 500 with no body on
error, 200 with the `newRecords` count on success. -/
def refreshStockDataHandler (env : RefreshEnv) (db : List Row) (symbol : GoStr) :
    RefreshHttpResult :=
  let r := fetchAndStoreData env db symbol
  match r.err with
  | some _ => ⟨500, none, r.db⟩
  | none => ⟨200, some r.newRecords, r.db⟩

/-- The `ORDER BY date DESC` relation on rows. -/
def dateDesc (a b : Row) : Prop := b.date ≤ a.date

instance : DecidableRel dateDesc := fun a b => inferInstanceAs (Decidable (b.date ≤ a.date))

instance : IsTotal Row dateDesc := ⟨fun a b => le_total b.date a.date⟩

instance : IsTrans Row dateDesc := ⟨fun _ _ _ h1 h2 => le_trans h2 h1⟩

/-- `WHERE symbol = $1`: the stored rows of one symbol. -/
def symbolRows (db : List Row) (symbol : GoStr) : List Row :=
  db.filter (fun r => decide (r.symbol = symbol))

/-- `ORDER BY date DESC`, realised as a sort. -/
def sortByDateDesc (rows : List Row) : List Row :=
  List.insertionSort dateDesc rows

/-- The parameters the GET handler draws from the outside world: the
refresh parameters used when the table has no rows for the symbol, and the
values of `CURRENT_DATE - INTERVAL '6 months'` and
`CURRENT_DATE - INTERVAL '1 year'` computed by the SQL engine. -/
structure GetEnv where
  refreshEnv : RefreshEnv
  cutoff6month : GoStr
  cutoff1year : GoStr

/-- The `switch timeRange` of `getStockDataHandler` together with the
execution of the selected query: `week`/`month` are the 7/30 most recent
rows, `6month`/`year` are the rows at or after the cutoff date, all
ordered by date descending; an unknown token selects no query (`none`,
the `default` branch). -/
def rangeQuery (env : GetEnv) (db : List Row) (symbol : GoStr) (timeRange : GoStr) :
    Option (List Row) :=
  if timeRange = "week".data then
    some ((sortByDateDesc (symbolRows db symbol)).take 7)
  else if timeRange = "month".data then
    some ((sortByDateDesc (symbolRows db symbol)).take 30)
  else if timeRange = "6month".data then
    some (sortByDateDesc ((symbolRows db symbol).filter (fun r => decide (env.cutoff6month ≤ r.date))))
  else if timeRange = "year".data then
    some (sortByDateDesc ((symbolRows db symbol).filter (fun r => decide (env.cutoff1year ≤ r.date))))
  else none

/-- The observable value of a `GET /api/stocks/{symbol}` response: HTTP
status, the JSON body (the served rows, absent on every error), the table
afterwards, the effect counts, and the number of reconciliation passes
(`fetchAndStoreData` invocations) the request triggered. -/
structure GetResult where
  status : Nat
  body : Option (List Row)
  db : List Row
  effects : Effects
  reconPasses : Nat
deriving DecidableEq, Repr

/-- `getStockDataHandler`: reject a missing symbol or range token with 400
before any data access; read `COUNT(*)` for the symbol; when zero, run one
reconciliation pass (500 on its failure); then run the query selected by
the range token, rejecting an unknown token with 400. -/
def getStockDataHandler (env : GetEnv) (db : List Row) (symbol : GoStr) (timeRange : GoStr) :
    GetResult :=
  if symbol = [] then ⟨400, none, db, ⟨0, 0, 0⟩, 0⟩
  else if timeRange = [] then ⟨400, none, db, ⟨0, 0, 0⟩, 0⟩
  else if countRows db symbol = 0 then
    let fr := fetchAndStoreData env.refreshEnv db symbol
    match fr.err with
    | some _ =>
        ⟨500, none, fr.db,
         ⟨fr.effects.upstreamCalls, fr.effects.dbReads + 1, fr.effects.dbWrites⟩, 1⟩
    | none =>
        match rangeQuery env fr.db symbol timeRange with
        | none =>
            ⟨400, none, fr.db,
             ⟨fr.effects.upstreamCalls, fr.effects.dbReads + 1, fr.effects.dbWrites⟩, 1⟩
        | some rows =>
            ⟨200, some rows, fr.db,
             ⟨fr.effects.upstreamCalls, fr.effects.dbReads + 2, fr.effects.dbWrites⟩, 1⟩
  else
    match rangeQuery env db symbol timeRange with
    | none => ⟨400, none, db, ⟨0, 1, 0⟩, 0⟩
    | some rows => ⟨200, some rows, db, ⟨0, 2, 0⟩, 0⟩

/-- One iteration of the store loop past the watermark test: convert the
entry and upsert it, or leave the table alone on a parse failure. -/
def applyEntry (symbol : GoStr) (now : Nat) (db : List Row) (e : GoStr × DailyRaw) : List Row :=
  match parseDaily e.2 with
  | some p => upsertRow db (toRow symbol now e.1 p)
  | none => db

/-- An entry is written by the store loop exactly when it passes the
watermark test and all five of its fields parse. -/
def goodEntry (latest : Option GoStr) (e : GoStr × DailyRaw) : Bool :=
  !skipDate latest e.1 && (parseDaily e.2).isSome

/-- The key columns of a table, for stating the primary-key invariant. -/
def keys (db : List Row) : List (GoStr × GoStr) :=
  db.map (fun r => (r.date, r.symbol))

/-- A sample daily record whose five fields all parse. -/
def cDaily : DailyRaw := ⟨"10".data, "12".data, "9".data, "11.5".data, "1000".data⟩

/-- A sample daily record whose volume field is non-numeric. -/
def cBadDaily : DailyRaw := ⟨"10".data, "12".data, "9".data, "11.5".data, "abc".data⟩

/-- A sample daily record re-observing a date with new, parseable values. -/
def cDaily99 : DailyRaw := ⟨"99".data, "98".data, "97".data, "96".data, "9".data⟩

/-- A sample stored row: symbol AAPL, date 2024-01-02, written at time 5. -/
def cRow : Row :=
  ⟨"2024-01-02".data, "AAPL".data, ⟨10, 0⟩, ⟨12, 0⟩, ⟨9, 0⟩, ⟨115, 1⟩, 1000, 5⟩

/-- The row carrying the re-observed values of `cDaily99` for `cRow`'s key. -/
def cRow99 : Row :=
  ⟨"2024-01-02".data, "AAPL".data, ⟨99, 0⟩, ⟨98, 0⟩, ⟨97, 0⟩, ⟨96, 0⟩, 9, 99⟩

/-- A sample refresh environment: key configured, a one-entry payload for
2024-01-03, working watermark query, clock at 7. -/
def cEnv : RefreshEnv := ⟨some "k".data, .ok ⟨[("2024-01-03".data, cDaily)]⟩, true, 7⟩

/-- A sample GET environment around `cEnv`. -/
def cGetEnv : GetEnv := ⟨cEnv, "2023-07-11".data, "2023-01-11".data⟩

/-- A four-date payload one of whose dates has a non-numeric volume. -/
def cPayload4 : List (GoStr × DailyRaw) :=
  [("2024-01-01".data, cDaily), ("2024-01-02".data, cBadDaily),
   ("2024-01-03".data, cDaily), ("2024-01-04".data, cDaily)]

/-- An upstream that answers HTTP 503 on every attempt. -/
def oc503 : Nat → AttemptOutcome := fun _ => .httpErr "503 Service Unavailable".data

theorem storeLoop_eq (symbol : GoStr) (now : Nat) (latest : Option GoStr)
    (entries : List (GoStr × DailyRaw)) (db : List Row) (acc : Nat) :
    storeLoop symbol now latest entries db acc =
      ((entries.filter (goodEntry latest)).foldl (applyEntry symbol now) db,
       acc + (entries.filter (goodEntry latest)).length) := by
  induction entries generalizing db acc with
  | nil => simp [storeLoop]
  | cons e rest ih =>
    obtain ⟨dateStr, sd⟩ := e
    by_cases hskip : skipDate latest dateStr
    · have hgood : ¬goodEntry latest (dateStr, sd) = true := by
        simp [goodEntry, hskip]
      have hstep : storeLoop symbol now latest ((dateStr, sd) :: rest) db acc
          = storeLoop symbol now latest rest db acc := by
        simp [storeLoop, hskip]
      rw [hstep, ih, List.filter_cons_of_neg hgood]
    · cases hp : parseDaily sd with
      | none =>
          have hgood : ¬goodEntry latest (dateStr, sd) = true := by
            simp [goodEntry, hskip, hp]
          have hstep : storeLoop symbol now latest ((dateStr, sd) :: rest) db acc
              = storeLoop symbol now latest rest db acc := by
            simp [storeLoop, hskip, hp]
          rw [hstep, ih, List.filter_cons_of_neg hgood]
      | some p =>
          have hgood : goodEntry latest (dateStr, sd) = true := by
            simp [goodEntry, hskip, hp]
          have hstep : storeLoop symbol now latest ((dateStr, sd) :: rest) db acc
              = storeLoop symbol now latest rest
                  (upsertRow db (toRow symbol now dateStr p)) (acc + 1) := by
            simp [storeLoop, hskip, hp]
          rw [hstep, ih, List.filter_cons_of_pos hgood]
          simp only [List.foldl_cons, List.length_cons]
          rw [Prod.mk.injEq]
          refine ⟨?_, by omega⟩
          have happ : applyEntry symbol now db (dateStr, sd)
              = upsertRow db (toRow symbol now dateStr p) := by
            simp [applyEntry, hp]
          rw [happ]

theorem lookupRow_append (db1 db2 : List Row) (d s : GoStr) :
    lookupRow (db1 ++ db2) d s = (lookupRow db1 d s).or (lookupRow db2 d s) := by
  simp [lookupRow, List.find?_append]

theorem lookupRow_upsertRow_ne (db : List Row) (row : Row) (d s : GoStr)
    (h : ¬(d = row.date ∧ s = row.symbol)) :
    lookupRow (upsertRow db row) d s = lookupRow db d s := by
  unfold upsertRow
  split
  · unfold lookupRow
    rw [List.find?_map]
    have hcomp :
        ((fun r : Row => decide (r.date = d ∧ r.symbol = s)) ∘
          (fun r : Row =>
            if r.date = row.date ∧ r.symbol = row.symbol then
              { r with Open := row.Open, High := row.High, Low := row.Low,
                       Close := row.Close, Volume := row.Volume,
                       last_updated := row.last_updated }
            else r)) =
          (fun r : Row => decide (r.date = d ∧ r.symbol = s)) := by
      funext r
      by_cases hr : r.date = row.date ∧ r.symbol = row.symbol <;> simp [hr]
    rw [hcomp]
    cases hres : db.find? (fun r : Row => decide (r.date = d ∧ r.symbol = s)) with
    | none => rfl
    | some r0 =>
        have hp := List.find?_some hres
        simp only [decide_eq_true_eq] at hp
        have : ¬(r0.date = row.date ∧ r0.symbol = row.symbol) := by
          intro hk
          exact h ⟨hp.1 ▸ hk.1, hp.2 ▸ hk.2⟩
        simp [this]
  · rw [lookupRow_append]
    have : lookupRow [row] d s = none := by
      simp only [lookupRow, List.find?]
      have : ¬(row.date = d ∧ row.symbol = s) := by
        intro hk
        exact h ⟨hk.1.symm, hk.2.symm⟩
      simp [this]
    rw [this]
    cases lookupRow db d s <;> rfl

theorem upsertRow_of_lookup_none (db : List Row) (row : Row)
    (h : lookupRow db row.date row.symbol = none) :
    upsertRow db row = db ++ [row] := by
  unfold upsertRow
  rw [if_neg]
  intro hany
  rw [List.any_eq_true] at hany
  obtain ⟨r, hr, hpr⟩ := hany
  rw [lookupRow, List.find?_eq_none] at h
  exact h r hr hpr

theorem lookupRow_upsertRow_new (db : List Row) (row : Row)
    (h : lookupRow db row.date row.symbol = none) :
    lookupRow (upsertRow db row) row.date row.symbol = some row := by
  rw [upsertRow_of_lookup_none db row h, lookupRow_append, h]
  simp [lookupRow, List.find?]

theorem lookupRow_upsertRow_self (db : List Row) (row : Row) (r0 : Row)
    (h : lookupRow db row.date row.symbol = some r0) :
    lookupRow (upsertRow db row) row.date row.symbol =
      some { r0 with Open := row.Open, High := row.High, Low := row.Low,
                     Close := row.Close, Volume := row.Volume,
                     last_updated := row.last_updated } := by
  have hfind : db.find? (fun r : Row => decide (r.date = row.date ∧ r.symbol = row.symbol))
      = some r0 := h
  have hp : r0.date = row.date ∧ r0.symbol = row.symbol := by
    have := List.find?_some hfind
    simpa using this
  have hany : db.any (fun r => decide (r.date = row.date ∧ r.symbol = row.symbol)) = true := by
    rw [List.any_eq_true]
    exact ⟨r0, List.mem_of_find?_eq_some hfind, by simpa using hp⟩
  unfold upsertRow
  rw [if_pos hany]
  unfold lookupRow
  rw [List.find?_map]
  have hcomp :
      ((fun r : Row => decide (r.date = row.date ∧ r.symbol = row.symbol)) ∘
        (fun r : Row =>
          if r.date = row.date ∧ r.symbol = row.symbol then
            { r with Open := row.Open, High := row.High, Low := row.Low,
                     Close := row.Close, Volume := row.Volume,
                     last_updated := row.last_updated }
          else r)) =
        (fun r : Row => decide (r.date = row.date ∧ r.symbol = row.symbol)) := by
    funext r
    by_cases hr : r.date = row.date ∧ r.symbol = row.symbol
    · simp [hr]
    · simp only [Function.comp_apply]
      rw [if_neg hr]
  rw [hcomp, hfind]
  simp [hp]

theorem lookupRow_upsertRow_isSome (db : List Row) (row : Row) :
    (lookupRow (upsertRow db row) row.date row.symbol).isSome := by
  cases h : lookupRow db row.date row.symbol with
  | none => rw [lookupRow_upsertRow_new db row h]; rfl
  | some r0 => rw [lookupRow_upsertRow_self db row r0 h]; rfl

theorem lookupRow_upsertRow_isSome_mono (db : List Row) (row : Row) (d s : GoStr)
    (h : (lookupRow db d s).isSome) :
    (lookupRow (upsertRow db row) d s).isSome := by
  by_cases hk : d = row.date ∧ s = row.symbol
  · obtain ⟨h1, h2⟩ := hk
    subst h1; subst h2
    exact lookupRow_upsertRow_isSome db row
  · rw [lookupRow_upsertRow_ne db row d s hk]
    exact h

theorem maxAux_some (a : GoStr) (l : List GoStr) :
    ∃ m, maxAux (some a) l = some m ∧ a ≤ m := by
  induction l generalizing a with
  | nil => exact ⟨a, rfl, le_refl a⟩
  | cons d rest ih =>
      obtain ⟨m, hm, ham⟩ := ih (max a d)
      exact ⟨m, hm, le_trans (le_max_left a d) ham⟩

theorem maxAux_mem (l : List GoStr) (d : GoStr) (hd : d ∈ l) (acc : Option GoStr) :
    ∃ m, maxAux acc l = some m ∧ d ≤ m := by
  induction l generalizing acc with
  | nil => cases hd
  | cons x rest ih =>
      rcases List.mem_cons.mp hd with h | h
      · subst h
        cases acc with
        | none => exact maxAux_some d rest
        | some a =>
            obtain ⟨m, hm, h2⟩ := maxAux_some (max a d) rest
            exact ⟨m, hm, le_trans (le_max_right a d) h2⟩
      · cases acc with
        | none => exact ih h (some x)
        | some a => exact ih h (some (max a x))

theorem maxAux_append (acc : Option GoStr) (l1 l2 : List GoStr) :
    maxAux acc (l1 ++ l2) = maxAux (maxAux acc l1) l2 := by
  induction l1 generalizing acc with
  | nil => rfl
  | cons x rest ih => simp [maxAux, ih]

theorem maxDate_ge_of_mem (db : List Row) (s : GoStr) (r : Row)
    (hr : r ∈ db) (hs : r.symbol = s) :
    ∃ m, maxDate db s = some m ∧ r.date ≤ m := by
  apply maxAux_mem
  exact List.mem_map_of_mem _ (List.mem_filter.mpr ⟨hr, by simp [hs]⟩)

theorem lookupRow_isSome_maxDate (db : List Row) (d s : GoStr)
    (h : (lookupRow db d s).isSome) :
    ∃ m, maxDate db s = some m ∧ d ≤ m := by
  obtain ⟨r, hr⟩ := Option.isSome_iff_exists.mp h
  have hmem := List.mem_of_find?_eq_some hr
  have hp : r.date = d ∧ r.symbol = s := by
    have := List.find?_some hr
    simpa using this
  obtain ⟨m, hm, hle⟩ := maxDate_ge_of_mem db s r hmem hp.2
  exact ⟨m, hm, hp.1 ▸ hle⟩

theorem maxDate_of_countRows_zero (db : List Row) (s : GoStr)
    (h : countRows db s = 0) : maxDate db s = none := by
  unfold countRows at h
  unfold maxDate
  rw [List.length_eq_zero.mp h]
  rfl

theorem maxDate_upsertRow (db : List Row) (row : Row) (s : GoStr) (m : GoStr)
    (h : maxDate db s = some m) :
    ∃ m2, maxDate (upsertRow db row) s = some m2 ∧ m ≤ m2 := by
  unfold upsertRow
  split
  · refine ⟨m, ?_, le_refl m⟩
    unfold maxDate at h ⊢
    rw [List.filter_map, List.map_map] at *
    have hcompp :
        ((fun r : Row => decide (r.symbol = s)) ∘
          (fun r : Row =>
            if r.date = row.date ∧ r.symbol = row.symbol then
              { r with Open := row.Open, High := row.High, Low := row.Low,
                       Close := row.Close, Volume := row.Volume,
                       last_updated := row.last_updated }
            else r)) =
          (fun r : Row => decide (r.symbol = s)) := by
      funext r
      by_cases hr : r.date = row.date ∧ r.symbol = row.symbol
      · simp [hr]
      · simp only [Function.comp_apply]
        rw [if_neg hr]
    have hcompd :
        ((fun r : Row => r.date) ∘
          (fun r : Row =>
            if r.date = row.date ∧ r.symbol = row.symbol then
              { r with Open := row.Open, High := row.High, Low := row.Low,
                       Close := row.Close, Volume := row.Volume,
                       last_updated := row.last_updated }
            else r)) =
          (fun r : Row => r.date) := by
      funext r
      by_cases hr : r.date = row.date ∧ r.symbol = row.symbol
      · simp [hr]
      · simp only [Function.comp_apply]
        rw [if_neg hr]
    rw [hcompp, hcompd]
    exact h
  · unfold maxDate at h ⊢
    rw [List.filter_append, List.map_append, maxAux_append, h]
    by_cases hs : row.symbol = s
    · simp only [List.filter_cons, hs]
      simp [maxAux]
    · simp only [List.filter_cons, hs]
      simp [maxAux, hs]

theorem maxDate_applyEntry (symbol : GoStr) (now : Nat) (db : List Row)
    (e : GoStr × DailyRaw) (s : GoStr) (m : GoStr) (h : maxDate db s = some m) :
    ∃ m2, maxDate (applyEntry symbol now db e) s = some m2 ∧ m ≤ m2 := by
  unfold applyEntry
  cases hp : parseDaily e.2 with
  | none => exact ⟨m, h, le_refl m⟩
  | some p => exact maxDate_upsertRow db _ s m h

theorem maxDate_foldl (symbol : GoStr) (now : Nat) (entries : List (GoStr × DailyRaw))
    (db : List Row) (s : GoStr) (m : GoStr) (h : maxDate db s = some m) :
    ∃ m2, maxDate (entries.foldl (applyEntry symbol now) db) s = some m2 ∧ m ≤ m2 := by
  induction entries generalizing db m with
  | nil => exact ⟨m, h, le_refl m⟩
  | cons e rest ih =>
      obtain ⟨m1, hm1, h1⟩ := maxDate_applyEntry symbol now db e s m h
      obtain ⟨m2, hm2, h2⟩ := ih (applyEntry symbol now db e) m1 hm1
      exact ⟨m2, by simpa using hm2, le_trans h1 h2⟩

theorem lookupRow_applyEntry_isSome_mono (symbol : GoStr) (now : Nat) (db : List Row)
    (e : GoStr × DailyRaw) (d s : GoStr) (h : (lookupRow db d s).isSome) :
    (lookupRow (applyEntry symbol now db e) d s).isSome := by
  unfold applyEntry
  cases parseDaily e.2 with
  | none => exact h
  | some p => exact lookupRow_upsertRow_isSome_mono db _ d s h

theorem lookupRow_foldl_isSome_mono (symbol : GoStr) (now : Nat)
    (entries : List (GoStr × DailyRaw)) (db : List Row) (d s : GoStr)
    (h : (lookupRow db d s).isSome) :
    (lookupRow (entries.foldl (applyEntry symbol now) db) d s).isSome := by
  induction entries generalizing db with
  | nil => exact h
  | cons e rest ih =>
      simpa using ih (applyEntry symbol now db e)
        (lookupRow_applyEntry_isSome_mono symbol now db e d s h)

theorem lookupRow_applyEntry_ne (symbol : GoStr) (now : Nat) (db : List Row)
    (e : GoStr × DailyRaw) (d s : GoStr) (hne : e.1 ≠ d) :
    lookupRow (applyEntry symbol now db e) d s = lookupRow db d s := by
  unfold applyEntry
  cases parseDaily e.2 with
  | none => rfl
  | some p =>
      apply lookupRow_upsertRow_ne
      intro hk
      exact hne (hk.1.symm)

theorem lookupRow_foldl_ne (symbol : GoStr) (now : Nat)
    (entries : List (GoStr × DailyRaw)) (db : List Row) (d s : GoStr)
    (h : ∀ e ∈ entries, e.1 ≠ d) :
    lookupRow (entries.foldl (applyEntry symbol now) db) d s = lookupRow db d s := by
  induction entries generalizing db with
  | nil => rfl
  | cons e rest ih =>
      have hstep := lookupRow_applyEntry_ne symbol now db e d s (h e (List.mem_cons_self e rest))
      have := ih (applyEntry symbol now db e) (fun e' he' => h e' (List.mem_cons_of_mem e he'))
      simpa [this] using hstep

theorem lookupRow_foldl_present (symbol : GoStr) (now : Nat)
    (entries : List (GoStr × DailyRaw)) (db : List Row)
    (e : GoStr × DailyRaw) (he : e ∈ entries) (hp : (parseDaily e.2).isSome) :
    (lookupRow (entries.foldl (applyEntry symbol now) db) e.1 symbol).isSome := by
  induction entries generalizing db with
  | nil => cases he
  | cons a rest ih =>
      rcases List.mem_cons.mp he with h | h
      · subst h
        simp only [List.foldl_cons]
        apply lookupRow_foldl_isSome_mono
        obtain ⟨p, hpp⟩ := Option.isSome_iff_exists.mp hp
        unfold applyEntry
        rw [hpp]
        exact lookupRow_upsertRow_isSome db (toRow symbol now e.1 p)
      · simpa using ih (applyEntry symbol now db a) h

theorem storeLoop_skip_all (symbol : GoStr) (now : Nat) (latest : Option GoStr)
    (entries : List (GoStr × DailyRaw)) (db : List Row) (acc : Nat)
    (h : ∀ e ∈ entries, ¬goodEntry latest e = true) :
    storeLoop symbol now latest entries db acc = (db, acc) := by
  rw [storeLoop_eq]
  rw [List.filter_eq_nil_iff.mpr h]
  simp

theorem keys_upsertRow (db : List Row) (row : Row)
    (h : (keys db).Nodup) : (keys (upsertRow db row)).Nodup := by
  unfold upsertRow
  split
  · have hkeys :
        keys (db.map (fun r : Row =>
          if r.date = row.date ∧ r.symbol = row.symbol then
            { r with Open := row.Open, High := row.High, Low := row.Low,
                     Close := row.Close, Volume := row.Volume,
                     last_updated := row.last_updated }
          else r)) = keys db := by
      unfold keys
      rw [List.map_map]
      congr 1
      funext r
      by_cases hr : r.date = row.date ∧ r.symbol = row.symbol
      · simp [hr]
      · simp only [Function.comp_apply]
        rw [if_neg hr]
    rw [hkeys]
    exact h
  · rename_i hany
    have hnotin : (row.date, row.symbol) ∉ keys db := by
      intro hmem
      obtain ⟨r, hr, heq⟩ := List.mem_map.mp hmem
      apply hany
      rw [List.any_eq_true]
      refine ⟨r, hr, ?_⟩
      have h1 : r.date = row.date := congrArg Prod.fst heq
      have h2 : r.symbol = row.symbol := congrArg Prod.snd heq
      simp [h1, h2]
    unfold keys
    rw [List.map_append]
    simp only [List.map_cons, List.map_nil]
    rw [(List.perm_append_singleton _ _).nodup_iff, List.nodup_cons]
    exact ⟨hnotin, h⟩

theorem keys_applyEntry (symbol : GoStr) (now : Nat) (db : List Row)
    (e : GoStr × DailyRaw) (h : (keys db).Nodup) :
    (keys (applyEntry symbol now db e)).Nodup := by
  unfold applyEntry
  cases parseDaily e.2 with
  | none => exact h
  | some p => exact keys_upsertRow db _ h

theorem keys_foldl (symbol : GoStr) (now : Nat) (entries : List (GoStr × DailyRaw))
    (db : List Row) (h : (keys db).Nodup) :
    (keys (entries.foldl (applyEntry symbol now) db)).Nodup := by
  induction entries generalizing db with
  | nil => exact h
  | cons e rest ih =>
      simpa using ih (applyEntry symbol now db e) (keys_applyEntry symbol now db e h)

theorem keys_fetchAndStoreData (env : RefreshEnv) (db : List Row) (symbol : GoStr)
    (h : (keys db).Nodup) : (keys (fetchAndStoreData env db symbol).db).Nodup := by
  obtain ⟨ak, fres, mq, now⟩ := env
  unfold fetchAndStoreData
  cases ak with
  | none => exact h
  | some k =>
      cases fres with
      | error e => exact h
      | ok data =>
          cases mq with
          | false => exact h
          | true =>
              simp only [storeLoop_eq]
              exact keys_foldl symbol now _ db h

theorem lookupRow_foldl_written (symbol : GoStr) (now : Nat)
    (entries : List (GoStr × DailyRaw)) (db : List Row)
    (hnd : (entries.map (fun e => e.1)).Nodup)
    (e : GoStr × DailyRaw) (he : e ∈ entries)
    (p : Decimal × Decimal × Decimal × Decimal × Nat) (hp : parseDaily e.2 = some p)
    (habs : lookupRow db e.1 symbol = none) :
    lookupRow (entries.foldl (applyEntry symbol now) db) e.1 symbol
      = some (toRow symbol now e.1 p) := by
  induction entries generalizing db with
  | nil => cases he
  | cons a rest ih =>
      have hnd2 : (rest.map (fun e => e.1)).Nodup := (List.nodup_cons.mp hnd).2
      have hhead : a.1 ∉ rest.map (fun e => e.1) := (List.nodup_cons.mp hnd).1
      rcases List.mem_cons.mp he with h | h
      · subst h
        simp only [List.foldl_cons]
        have hstep : applyEntry symbol now db e = upsertRow db (toRow symbol now e.1 p) := by
          unfold applyEntry
          rw [hp]
        rw [hstep]
        rw [lookupRow_foldl_ne symbol now rest _ e.1 symbol ?hne]
        case hne =>
          intro e2 he2 heq
          exact hhead (heq ▸ List.mem_map_of_mem _ he2)
        exact lookupRow_upsertRow_new db (toRow symbol now e.1 p) habs
      · have hane : a.1 ≠ e.1 := by
          intro heq
          exact hhead (heq ▸ List.mem_map_of_mem (fun e => e.1) h)
        simp only [List.foldl_cons]
        refine ih (applyEntry symbol now db a) hnd2 h ?_
        rw [lookupRow_applyEntry_ne symbol now db a e.1 symbol hane]
        exact habs

theorem lookupRow_foldl_not_good (symbol : GoStr) (now : Nat) (latest : Option GoStr)
    (entries : List (GoStr × DailyRaw)) (db : List Row)
    (hnd : (entries.map (fun e => e.1)).Nodup)
    (e : GoStr × DailyRaw) (he : e ∈ entries) (hbad : ¬goodEntry latest e = true) :
    lookupRow ((entries.filter (goodEntry latest)).foldl (applyEntry symbol now) db) e.1 symbol
      = lookupRow db e.1 symbol := by
  apply lookupRow_foldl_ne
  intro e2 he2 heq
  have he2mem : e2 ∈ entries := List.mem_of_mem_filter he2
  have hgood2 : goodEntry latest e2 = true := List.of_mem_filter he2
  have : e2 = e := List.inj_on_of_nodup_map hnd he2mem he heq
  exact hbad (this ▸ hgood2)

theorem fetchStockData_cases (oc : Nat → AttemptOutcome) :
    (∃ d, oc 1 = .ok d ∧ fetchStockData oc = ⟨some d, none, 1, []⟩)
    ∨ (∃ d, (oc 1).isFail = true ∧ oc 2 = .ok d ∧ fetchStockData oc = ⟨some d, none, 2, [1]⟩)
    ∨ (∃ d, (oc 1).isFail = true ∧ (oc 2).isFail = true ∧ oc 3 = .ok d ∧
        fetchStockData oc = ⟨some d, none, 3, [1, 2]⟩)
    ∨ ((oc 1).isFail = true ∧ (oc 2).isFail = true ∧ (oc 3).isFail = true ∧
        fetchStockData oc = ⟨none, some ⟨3, oc 3⟩, 3, [1, 2, 3]⟩) := by
  cases h1 : oc 1 with
  | ok d =>
      exact Or.inl ⟨d, rfl, by simp [fetchStockData, fetchLoop, h1]⟩
  | netErr m1 =>
      cases h2 : oc 2 with
      | ok d =>
          exact Or.inr (Or.inl ⟨d, by simp [AttemptOutcome.isFail, h1],
            rfl, by simp [fetchStockData, fetchLoop, h1, h2]⟩)
      | netErr m2 =>
          cases h3 : oc 3 with
          | ok d =>
              refine Or.inr (Or.inr (Or.inl ⟨d, by simp [AttemptOutcome.isFail, h1],
                by simp [AttemptOutcome.isFail, h2], rfl, ?_⟩))
              simp [fetchStockData, fetchLoop, h1, h2, h3]
          | netErr m3 =>
              refine Or.inr (Or.inr (Or.inr ⟨by simp [AttemptOutcome.isFail, h1],
                by simp [AttemptOutcome.isFail, h2], by simp [AttemptOutcome.isFail, h3], ?_⟩))
              simp [fetchStockData, fetchLoop, h1, h2, h3]
          | httpErr s3 =>
              refine Or.inr (Or.inr (Or.inr ⟨by simp [AttemptOutcome.isFail, h1],
                by simp [AttemptOutcome.isFail, h2], by simp [AttemptOutcome.isFail, h3], ?_⟩))
              simp [fetchStockData, fetchLoop, h1, h2, h3]
      | httpErr s2 =>
          cases h3 : oc 3 with
          | ok d =>
              refine Or.inr (Or.inr (Or.inl ⟨d, by simp [AttemptOutcome.isFail, h1],
                by simp [AttemptOutcome.isFail, h2], rfl, ?_⟩))
              simp [fetchStockData, fetchLoop, h1, h2, h3]
          | netErr m3 =>
              refine Or.inr (Or.inr (Or.inr ⟨by simp [AttemptOutcome.isFail, h1],
                by simp [AttemptOutcome.isFail, h2], by simp [AttemptOutcome.isFail, h3], ?_⟩))
              simp [fetchStockData, fetchLoop, h1, h2, h3]
          | httpErr s3 =>
              refine Or.inr (Or.inr (Or.inr ⟨by simp [AttemptOutcome.isFail, h1],
                by simp [AttemptOutcome.isFail, h2], by simp [AttemptOutcome.isFail, h3], ?_⟩))
              simp [fetchStockData, fetchLoop, h1, h2, h3]
  | httpErr s1 =>
      cases h2 : oc 2 with
      | ok d =>
          exact Or.inr (Or.inl ⟨d, by simp [AttemptOutcome.isFail, h1],
            rfl, by simp [fetchStockData, fetchLoop, h1, h2]⟩)
      | netErr m2 =>
          cases h3 : oc 3 with
          | ok d =>
              refine Or.inr (Or.inr (Or.inl ⟨d, by simp [AttemptOutcome.isFail, h1],
                by simp [AttemptOutcome.isFail, h2], rfl, ?_⟩))
              simp [fetchStockData, fetchLoop, h1, h2, h3]
          | netErr m3 =>
              refine Or.inr (Or.inr (Or.inr ⟨by simp [AttemptOutcome.isFail, h1],
                by simp [AttemptOutcome.isFail, h2], by simp [AttemptOutcome.isFail, h3], ?_⟩))
              simp [fetchStockData, fetchLoop, h1, h2, h3]
          | httpErr s3 =>
              refine Or.inr (Or.inr (Or.inr ⟨by simp [AttemptOutcome.isFail, h1],
                by simp [AttemptOutcome.isFail, h2], by simp [AttemptOutcome.isFail, h3], ?_⟩))
              simp [fetchStockData, fetchLoop, h1, h2, h3]
      | httpErr s2 =>
          cases h3 : oc 3 with
          | ok d =>
              refine Or.inr (Or.inr (Or.inl ⟨d, by simp [AttemptOutcome.isFail, h1],
                by simp [AttemptOutcome.isFail, h2], rfl, ?_⟩))
              simp [fetchStockData, fetchLoop, h1, h2, h3]
          | netErr m3 =>
              refine Or.inr (Or.inr (Or.inr ⟨by simp [AttemptOutcome.isFail, h1],
                by simp [AttemptOutcome.isFail, h2], by simp [AttemptOutcome.isFail, h3], ?_⟩))
              simp [fetchStockData, fetchLoop, h1, h2, h3]
          | httpErr s3 =>
              refine Or.inr (Or.inr (Or.inr ⟨by simp [AttemptOutcome.isFail, h1],
                by simp [AttemptOutcome.isFail, h2], by simp [AttemptOutcome.isFail, h3], ?_⟩))
              simp [fetchStockData, fetchLoop, h1, h2, h3]

/-- Claim C8: the upstream client makes at most 3 attempts; it propagates
an error only when all 3 attempts failed, the error carrying the last
failure's detail and its attempt number 3; after each failed attempt it
sleeps `attempt` seconds, so a fully failed fetch sleeps 1s and 2s between
attempts (3s more after the last one, 6s in total); and with HTTP 503 on
every attempt the refresh endpoint answers 500 with no rows stored. -/
theorem C8_spec :
    (∀ oc : Nat → AttemptOutcome, (fetchStockData oc).attemptsMade ≤ 3)
    ∧ (∀ (oc : Nat → AttemptOutcome) (e : FetchError), (fetchStockData oc).err = some e →
        (fetchStockData oc).attemptsMade = 3
        ∧ (oc 1).isFail = true ∧ (oc 2).isFail = true ∧ (oc 3).isFail = true
        ∧ e = ⟨3, oc 3⟩)
    ∧ (∀ oc : Nat → AttemptOutcome,
        (oc 1).isFail = true → (oc 2).isFail = true → (oc 3).isFail = true →
        (fetchStockData oc).err = some ⟨3, oc 3⟩
        ∧ (fetchStockData oc).sleeps = [1, 2, 3])
    ∧ (∀ (db : List Row) (symbol k : GoStr) (now : Nat),
        refreshStockDataHandler ⟨some k, fetchExcept oc503, true, now⟩ db symbol
          = ⟨500, none, db⟩)
    ∧ ((fetchStockData oc503).sleeps.take 2 = [1, 2]
        ∧ (fetchStockData oc503).sleeps.sum = 6) := by
  refine ⟨?_, ?_, ?_, ?_, by decide⟩
  · intro oc
    rcases fetchStockData_cases oc with ⟨d, _, hfs⟩ | ⟨d, _, _, hfs⟩ |
      ⟨d, _, _, _, hfs⟩ | ⟨_, _, _, hfs⟩ <;> simp [hfs]
  · intro oc e herr
    rcases fetchStockData_cases oc with ⟨d, _, hfs⟩ | ⟨d, _, _, hfs⟩ |
      ⟨d, _, _, _, hfs⟩ | ⟨hf1, hf2, hf3, hfs⟩
    · rw [hfs] at herr
      exact absurd herr (by simp)
    · rw [hfs] at herr
      exact absurd herr (by simp)
    · rw [hfs] at herr
      exact absurd herr (by simp)
    · rw [hfs] at herr
      have he : e = ⟨3, oc 3⟩ := by
        have h2 : some (⟨3, oc 3⟩ : FetchError) = some e := herr.symm ▸ rfl
        exact (Option.some.inj h2).symm
      exact ⟨by rw [hfs], hf1, hf2, hf3, he⟩
  · intro oc hf1 hf2 hf3
    rcases fetchStockData_cases oc with ⟨d, hok, hfs⟩ | ⟨d, _, hok, hfs⟩ |
      ⟨d, _, _, hok, hfs⟩ | ⟨_, _, _, hfs⟩
    · rw [hok] at hf1
      exact absurd hf1 (by simp [AttemptOutcome.isFail])
    · rw [hok] at hf2
      exact absurd hf2 (by simp [AttemptOutcome.isFail])
    · rw [hok] at hf3
      exact absurd hf3 (by simp [AttemptOutcome.isFail])
    · rw [hfs]
      exact ⟨rfl, rfl⟩
  · intro db symbol k now
    have hexc : fetchExcept oc503
        = .error ⟨3, .httpErr "503 Service Unavailable".data⟩ := rfl
    simp [refreshStockDataHandler, fetchAndStoreData, hexc]

/-- Witness for C8 at a concrete input: the all-503 schedule exhausts the
3 attempts and surfaces the third attempt's failure. -/
theorem C8_witness :
    (fetchStockData oc503).err = some ⟨3, oc503 3⟩
    ∧ (fetchStockData oc503).sleeps = [1, 2, 3] :=
  C8_spec.2.2.1 oc503 rfl rfl rfl

/-- Claim C7: each of the three fatal failure modes of `fetchAndStoreData`
— missing provider API key, upstream fetch failure after retry
exhaustion, and failure of the stored-maximum-date query — fails the
whole refresh with an error, a returned count of 0 and no rows inserted
or updated; a missing API key in particular causes no upstream call and
no database access at all. -/
theorem C7_spec (env : RefreshEnv) (db : List Row) (symbol : GoStr) :
    (env.apiKey = none →
      fetchAndStoreData env db symbol = ⟨db, 0, some .missingApiKey, ⟨0, 0, 0⟩⟩)
    ∧ (∀ e k, env.apiKey = some k → env.fetchResult = .error e →
      fetchAndStoreData env db symbol = ⟨db, 0, some (.fetchFailed e), ⟨1, 0, 0⟩⟩)
    ∧ (∀ data k, env.apiKey = some k → env.fetchResult = .ok data → env.maxQueryOk = false →
      fetchAndStoreData env db symbol = ⟨db, 0, some .latestDateQueryFailed, ⟨1, 1, 0⟩⟩) := by
  obtain ⟨ak, fres, mq, now⟩ := env
  refine ⟨?_, ?_, ?_⟩
  · intro hak
    dsimp only at hak
    subst hak
    rfl
  · intro e k hak hfe
    dsimp only at hak hfe
    subst hak
    subst hfe
    rfl
  · intro data k hak hfd hmq
    dsimp only at hak hfd hmq
    subst hak
    subst hfd
    subst hmq
    rfl

/-- Witness for C7 at a concrete input: a refresh with no configured API
key on a one-row table. -/
theorem C7_witness :
    fetchAndStoreData ⟨none, .error ⟨1, .netErr []⟩, true, 0⟩ [cRow] "AAPL".data
      = ⟨[cRow], 0, some .missingApiKey, ⟨0, 0, 0⟩⟩ :=
  (C7_spec ⟨none, .error ⟨1, .netErr []⟩, true, 0⟩ [cRow] "AAPL".data).1 rfl

/-- Claim C10: for a symbol with at least one stored row, a GET request is
read-only: no upstream invocation, no table write, no reconciliation pass,
and the table (hence the stored state of every symbol) is identical before
and after the request. -/
theorem C10_spec (env : GetEnv) (db : List Row) (symbol timeRange : GoStr)
    (h : countRows db symbol ≠ 0) :
    (getStockDataHandler env db symbol timeRange).db = db
    ∧ (getStockDataHandler env db symbol timeRange).effects.upstreamCalls = 0
    ∧ (getStockDataHandler env db symbol timeRange).effects.dbWrites = 0
    ∧ (getStockDataHandler env db symbol timeRange).reconPasses = 0 := by
  unfold getStockDataHandler
  by_cases hs : symbol = []
  · simp [hs]
  by_cases ht : timeRange = []
  · simp [hs, ht]
  rw [if_neg hs, if_neg ht, if_neg h]
  cases hq : rangeQuery env db symbol timeRange with
  | none => simp [hq]
  | some rows => simp [hq]

/-- Witness for C10 at a concrete input: a GET for a symbol with one
stored row. -/
theorem C10_witness :
    (getStockDataHandler cGetEnv [cRow] "AAPL".data "week".data).db = [cRow] :=
  (C10_spec cGetEnv [cRow] "AAPL".data "week".data (by decide)).1

/-- Claim C9: for a symbol with zero stored rows, a GET with a present
symbol and range token runs exactly one reconciliation pass; if that pass
fails the response is 500 with no body, and otherwise the range read is
answered from the reconciled table. -/
theorem C9_spec (env : GetEnv) (db : List Row) (symbol timeRange : GoStr)
    (hs : symbol ≠ []) (ht : timeRange ≠ []) (hzero : countRows db symbol = 0) :
    (getStockDataHandler env db symbol timeRange).reconPasses = 1
    ∧ ((fetchAndStoreData env.refreshEnv db symbol).err.isSome = true →
        (getStockDataHandler env db symbol timeRange).status = 500
        ∧ (getStockDataHandler env db symbol timeRange).body = none)
    ∧ ((fetchAndStoreData env.refreshEnv db symbol).err = none →
        (getStockDataHandler env db symbol timeRange).db
          = (fetchAndStoreData env.refreshEnv db symbol).db
        ∧ (getStockDataHandler env db symbol timeRange).body
          = rangeQuery env (fetchAndStoreData env.refreshEnv db symbol).db symbol timeRange) := by
  unfold getStockDataHandler
  rw [if_neg hs, if_neg ht, if_pos hzero]
  cases herr : (fetchAndStoreData env.refreshEnv db symbol).err with
  | some e => simp [herr]
  | none =>
      cases hq : rangeQuery env (fetchAndStoreData env.refreshEnv db symbol).db symbol timeRange with
      | none => simp [herr, hq]
      | some rows => simp [herr, hq]

/-- Witness for C9 at a concrete input: a GET for a symbol absent from a
one-row table. -/
theorem C9_witness :
    (getStockDataHandler cGetEnv [cRow] "MSFT".data "week".data).reconPasses = 1 :=
  (C9_spec cGetEnv [cRow] "MSFT".data "week".data (by decide) (by decide) (by decide)).1

theorem sorted_sortByDateDesc (rows : List Row) :
    List.Sorted dateDesc (sortByDateDesc rows) :=
  List.sorted_insertionSort dateDesc rows

theorem rangeQuery_spec (env : GetEnv) (db : List Row) (symbol timeRange : GoStr)
    (rows : List Row) (h : rangeQuery env db symbol timeRange = some rows) :
    (timeRange = "week".data → rows.length ≤ 7)
    ∧ (timeRange = "month".data → rows.length ≤ 30)
    ∧ List.Sorted dateDesc rows := by
  unfold rangeQuery at h
  by_cases hw : timeRange = "week".data
  · rw [if_pos hw] at h
    cases h
    refine ⟨fun _ => List.length_take_le 7 _, fun hmon => ?_, ?_⟩
    · exact absurd (hw.symm.trans hmon) (by decide)
    · exact List.Pairwise.sublist (List.take_sublist 7 _) (sorted_sortByDateDesc _)
  rw [if_neg hw] at h
  by_cases hm : timeRange = "month".data
  · rw [if_pos hm] at h
    cases h
    refine ⟨fun hwk => absurd (hm.symm.trans hwk) (by decide),
      fun _ => List.length_take_le 30 _, ?_⟩
    exact List.Pairwise.sublist (List.take_sublist 30 _) (sorted_sortByDateDesc _)
  rw [if_neg hm] at h
  by_cases h6 : timeRange = "6month".data
  · rw [if_pos h6] at h
    cases h
    exact ⟨fun hwk => absurd (h6.symm.trans hwk) (by decide),
      fun hmon => absurd (h6.symm.trans hmon) (by decide),
      sorted_sortByDateDesc _⟩
  rw [if_neg h6] at h
  by_cases hy : timeRange = "year".data
  · rw [if_pos hy] at h
    cases h
    exact ⟨fun hwk => absurd (hy.symm.trans hwk) (by decide),
      fun hmon => absurd (hy.symm.trans hmon) (by decide),
      sorted_sortByDateDesc _⟩
  rw [if_neg hy] at h
  cases h

theorem getStockDataHandler_body (env : GetEnv) (db : List Row)
    (symbol timeRange : GoStr) (rows : List Row)
    (h : (getStockDataHandler env db symbol timeRange).body = some rows) :
    rangeQuery env db symbol timeRange = some rows
    ∨ rangeQuery env (fetchAndStoreData env.refreshEnv db symbol).db symbol timeRange
        = some rows := by
  unfold getStockDataHandler at h
  by_cases hs : symbol = []
  · rw [if_pos hs] at h
    exact absurd h (by simp)
  rw [if_neg hs] at h
  by_cases ht : timeRange = []
  · rw [if_pos ht] at h
    exact absurd h (by simp)
  rw [if_neg ht] at h
  by_cases hc : countRows db symbol = 0
  · rw [if_pos hc] at h
    cases herr : (fetchAndStoreData env.refreshEnv db symbol).err with
    | some e => simp [herr] at h
    | none =>
        simp only [herr] at h
        cases hq : rangeQuery env (fetchAndStoreData env.refreshEnv db symbol).db
            symbol timeRange with
        | none => simp [hq] at h
        | some rows2 =>
            simp only [hq, Option.some.injEq] at h
            right
            exact congrArg some h
  · rw [if_neg hc] at h
    cases hq : rangeQuery env db symbol timeRange with
    | none => simp [hq] at h
    | some rows2 =>
        simp only [hq, Option.some.injEq] at h
        left
        exact congrArg some h

/-- Claim C6: every successful GET response holds at most 7 rows for range
`week` and at most 30 for range `month`, and the rows of every successful
GET response (any of the four ranges) are ordered by date descending. -/
theorem C6_spec (env : GetEnv) (db : List Row) (symbol timeRange : GoStr)
    (rows : List Row)
    (h : (getStockDataHandler env db symbol timeRange).body = some rows) :
    (timeRange = "week".data → rows.length ≤ 7)
    ∧ (timeRange = "month".data → rows.length ≤ 30)
    ∧ List.Sorted dateDesc rows := by
  rcases getStockDataHandler_body env db symbol timeRange rows h with hq | hq
  · exact rangeQuery_spec env db symbol timeRange rows hq
  · exact rangeQuery_spec env _ symbol timeRange rows hq

/-- Witness for C6 at a concrete input: a `week` GET on a one-row table
serves that row. -/
theorem C6_witness :
    ("week".data = "week".data → ([cRow] : List Row).length ≤ 7)
    ∧ ("week".data = "month".data → ([cRow] : List Row).length ≤ 30)
    ∧ List.Sorted dateDesc [cRow] :=
  C6_spec cGetEnv [cRow] "AAPL".data "week".data [cRow] (by decide)

/-- Claim C1 as stated is refuted: a GET with a present symbol (one stored
row) and the unknown range token `decade` does answer 400, but it performs
one read of stock_data (the row-count query) rather than no database query
at all. -/
theorem C1_counterexample :
    (getStockDataHandler cGetEnv [cRow] "AAPL".data "decade".data).status = 400
    ∧ (getStockDataHandler cGetEnv [cRow] "AAPL".data "decade".data).effects.dbReads = 1 := by
  decide

/-- Claim C1 (amended): for a present symbol and a range token outside
week/month/6month/year, the handler answers 400 with no body only after
the row-count read of stock_data: with at least one stored row the result
is exactly 400 after one read, no write, no upstream call and an unchanged
table; with zero stored rows a full reconciliation pass runs before the
rejection. -/
theorem C1_spec (env : GetEnv) (db : List Row) (symbol timeRange : GoStr)
    (hs : symbol ≠ []) (ht : timeRange ≠ [])
    (hw : timeRange ≠ "week".data) (hm : timeRange ≠ "month".data)
    (h6 : timeRange ≠ "6month".data) (hy : timeRange ≠ "year".data) :
    (countRows db symbol ≠ 0 →
      getStockDataHandler env db symbol timeRange = ⟨400, none, db, ⟨0, 1, 0⟩, 0⟩)
    ∧ (countRows db symbol = 0 →
      (getStockDataHandler env db symbol timeRange).reconPasses = 1) := by
  have hq : ∀ db2, rangeQuery env db2 symbol timeRange = none := by
    intro db2
    unfold rangeQuery
    rw [if_neg hw, if_neg hm, if_neg h6, if_neg hy]
  constructor
  · intro hc
    unfold getStockDataHandler
    rw [if_neg hs, if_neg ht, if_neg hc, hq db]
  · intro hc
    unfold getStockDataHandler
    rw [if_neg hs, if_neg ht, if_pos hc]
    cases herr : (fetchAndStoreData env.refreshEnv db symbol).err with
    | some e => simp [herr]
    | none => simp [herr, hq]

/-- Witness for the amended C1 at a concrete input: range token `decade`
against a one-row table. -/
theorem C1_witness :
    getStockDataHandler cGetEnv [cRow] "AAPL".data "decade".data
      = ⟨400, none, [cRow], ⟨0, 1, 0⟩, 0⟩ :=
  (C1_spec cGetEnv [cRow] "AAPL".data "decade".data (by decide) (by decide)
    (by decide) (by decide) (by decide) (by decide)).1 (by decide)

theorem fetchAndStoreData_ok_db (k : GoStr) (data : TimeSeriesResponse) (now : Nat)
    (db : List Row) (symbol : GoStr) :
    (fetchAndStoreData ⟨some k, .ok data, true, now⟩ db symbol).db
      = (data.TimeSeriesDaily.filter (goodEntry (maxDate db symbol))).foldl
          (applyEntry symbol now) db := by
  show (storeLoop symbol now (maxDate db symbol) data.TimeSeriesDaily db 0).1 = _
  rw [storeLoop_eq]

theorem fetchAndStoreData_ok_newRecords (k : GoStr) (data : TimeSeriesResponse) (now : Nat)
    (db : List Row) (symbol : GoStr) :
    (fetchAndStoreData ⟨some k, .ok data, true, now⟩ db symbol).newRecords
      = (data.TimeSeriesDaily.filter (goodEntry (maxDate db symbol))).length := by
  show (storeLoop symbol now (maxDate db symbol) data.TimeSeriesDaily db 0).2 = _
  rw [storeLoop_eq]
  exact Nat.zero_add _

/-- Claim C2 as stated is refuted: a refresh whose payload re-observes the
already-stored date 2024-01-02 with new parseable values leaves the table
byte-for-byte unchanged — the stored row keeps its old open price and old
timestamp, so the non-key fields are not replaced and the modification
timestamp is not refreshed. -/
theorem C2_counterexample :
    (parseDaily cDaily99).isSome = true
    ∧ (fetchAndStoreData ⟨some "k".data, .ok ⟨[(cRow.date, cDaily99)]⟩, true, 99⟩
        [cRow] "AAPL".data).db = [cRow]
    ∧ (fetchAndStoreData ⟨some "k".data, .ok ⟨[(cRow.date, cDaily99)]⟩, true, 99⟩
        [cRow] "AAPL".data).newRecords = 0
    ∧ cRow.Open ≠ ⟨99, 0⟩
    ∧ cRow.last_updated ≠ 99 := by
  decide

/-- Claim C2 (amended): the upsert statement itself, when executed on an
existing (date, symbol) key, replaces all non-key fields with the new
values and refreshes the modification timestamp while leaving the key
unchanged; but a refresh skips every upstream date at or below the stored
maximum for the symbol, so it never executes the upsert for an
already-stored date: every row stored for the refreshed symbol survives
the refresh unchanged, and stale same-day data is not corrected. -/
theorem C2_spec :
    (∀ (db : List Row) (row r0 : Row),
      lookupRow db row.date row.symbol = some r0 →
      lookupRow (upsertRow db row) row.date row.symbol
        = some { r0 with Open := row.Open, High := row.High, Low := row.Low,
                         Close := row.Close, Volume := row.Volume,
                         last_updated := row.last_updated })
    ∧ (∀ (env : RefreshEnv) (db : List Row) (symbol d : GoStr) (r : Row),
        lookupRow db d symbol = some r →
        lookupRow (fetchAndStoreData env db symbol).db d symbol = some r) := by
  constructor
  · exact fun db row r0 h => lookupRow_upsertRow_self db row r0 h
  · intro env db symbol d r h
    obtain ⟨ak, fres, mq, now⟩ := env
    cases ak with
    | none => exact h
    | some k =>
        cases fres with
        | error e => exact h
        | ok data =>
            cases mq with
            | false => exact h
            | true =>
                rw [fetchAndStoreData_ok_db k data now db symbol]
                have hsome : (lookupRow db d symbol).isSome := by
                  rw [h]
                  rfl
                obtain ⟨m0, hm0, hdm0⟩ := lookupRow_isSome_maxDate db d symbol hsome
                rw [lookupRow_foldl_ne]
                · exact h
                · intro e he heq
                  have hg : goodEntry (maxDate db symbol) e = true := List.of_mem_filter he
                  unfold goodEntry at hg
                  rw [hm0] at hg
                  simp only [Bool.and_eq_true, Bool.not_eq_true'] at hg
                  have hnle : ¬e.1 ≤ m0 := by
                    have := hg.1
                    unfold skipDate at this
                    simpa using this
                  exact hnle (heq ▸ hdm0)

/-- Witness for the amended C2 at concrete inputs: the upsert replaces the
non-key fields of `cRow` with those of `cRow99`, while a refresh
re-observing `cRow`'s date leaves the stored row intact. -/
theorem C2_witness :
    lookupRow (upsertRow [cRow] cRow99) cRow99.date cRow99.symbol
      = some { cRow with Open := cRow99.Open, High := cRow99.High, Low := cRow99.Low,
                         Close := cRow99.Close, Volume := cRow99.Volume,
                         last_updated := cRow99.last_updated }
    ∧ lookupRow (fetchAndStoreData ⟨some "k".data, .ok ⟨[(cRow.date, cDaily99)]⟩, true, 99⟩
        [cRow] "AAPL".data).db cRow.date "AAPL".data = some cRow :=
  ⟨C2_spec.1 [cRow] cRow99 cRow (by decide),
   C2_spec.2 ⟨some "k".data, .ok ⟨[(cRow.date, cDaily99)]⟩, true, 99⟩
     [cRow] "AAPL".data cRow.date cRow (by decide)⟩

/-- Claim C3 as stated is refuted: with stored maximum 2024-01-02, the
upstream date 2024-01-03 is strictly greater than the watermark yet is not
upserted, because its volume field fails to parse — the table is unchanged
and the returned count is 0. -/
theorem C3_counterexample :
    maxDate [cRow] "AAPL".data = some cRow.date
    ∧ cRow.date < "2024-01-03".data
    ∧ (fetchAndStoreData ⟨some "k".data, .ok ⟨[("2024-01-03".data, cBadDaily)]⟩, true, 9⟩
        [cRow] "AAPL".data).db = [cRow]
    ∧ (fetchAndStoreData ⟨some "k".data, .ok ⟨[("2024-01-03".data, cBadDaily)]⟩, true, 9⟩
        [cRow] "AAPL".data).newRecords = 0 := by
  decide

/-- Claim C3 (amended): in a successful refresh, exactly the parseable
upstream dates strictly greater than the stored maximum are converted and
upserted: the returned count is the number of payload entries past the
watermark whose five fields all parse; each such entry is afterwards
stored as its converted row; every other entry leaves its date's stored
value untouched; and when no rows exist for the symbol the watermark is
absent, so no date is skipped by it. -/
theorem C3_spec (k : GoStr) (data : TimeSeriesResponse) (now : Nat)
    (db : List Row) (symbol : GoStr)
    (hnd : (data.TimeSeriesDaily.map (fun e => e.1)).Nodup) :
    ((fetchAndStoreData ⟨some k, .ok data, true, now⟩ db symbol).newRecords
        = (data.TimeSeriesDaily.filter (goodEntry (maxDate db symbol))).length)
    ∧ (∀ e ∈ data.TimeSeriesDaily, ∀ p, parseDaily e.2 = some p →
        skipDate (maxDate db symbol) e.1 = false →
        lookupRow (fetchAndStoreData ⟨some k, .ok data, true, now⟩ db symbol).db e.1 symbol
          = some (toRow symbol now e.1 p))
    ∧ (∀ e ∈ data.TimeSeriesDaily, ¬goodEntry (maxDate db symbol) e = true →
        lookupRow (fetchAndStoreData ⟨some k, .ok data, true, now⟩ db symbol).db e.1 symbol
          = lookupRow db e.1 symbol)
    ∧ (countRows db symbol = 0 →
        maxDate db symbol = none
        ∧ ∀ e ∈ data.TimeSeriesDaily, skipDate (maxDate db symbol) e.1 = false) := by
  refine ⟨fetchAndStoreData_ok_newRecords k data now db symbol, ?_, ?_, ?_⟩
  · intro e he p hp hskip
    rw [fetchAndStoreData_ok_db k data now db symbol]
    have hgood : goodEntry (maxDate db symbol) e = true := by
      simp [goodEntry, hskip, hp]
    have hmemf : e ∈ data.TimeSeriesDaily.filter (goodEntry (maxDate db symbol)) :=
      List.mem_filter.mpr ⟨he, hgood⟩
    have hndf : ((data.TimeSeriesDaily.filter (goodEntry (maxDate db symbol))).map
        (fun e => e.1)).Nodup :=
      List.Nodup.sublist (List.Sublist.map _ (List.filter_sublist _)) hnd
    have habs : lookupRow db e.1 symbol = none := by
      cases hlk : lookupRow db e.1 symbol with
      | none => rfl
      | some r =>
          exfalso
          obtain ⟨m, hm, hle⟩ := lookupRow_isSome_maxDate db e.1 symbol (by rw [hlk]; rfl)
          rw [hm] at hskip
          have hnle : ¬e.1 ≤ m := by
            unfold skipDate at hskip
            simpa using hskip
          exact hnle hle
    exact lookupRow_foldl_written symbol now _ db hndf e hmemf p hp habs
  · intro e he hbad
    rw [fetchAndStoreData_ok_db k data now db symbol]
    exact lookupRow_foldl_not_good symbol now (maxDate db symbol) data.TimeSeriesDaily db
      hnd e he hbad
  · intro hc
    have hmd := maxDate_of_countRows_zero db symbol hc
    refine ⟨hmd, fun e he => ?_⟩
    rw [hmd]
    rfl

/-- Witness for the amended C3 at a concrete input: a single parseable
payload date past the watermark is upserted and counted. -/
theorem C3_witness :
    ((fetchAndStoreData cEnv [cRow] "AAPL".data).newRecords
        = ([("2024-01-03".data, cDaily)].filter (goodEntry (maxDate [cRow] "AAPL".data))).length)
    ∧ lookupRow (fetchAndStoreData cEnv [cRow] "AAPL".data).db "2024-01-03".data "AAPL".data
        = some (toRow "AAPL".data 7 "2024-01-03".data ⟨⟨10, 0⟩, ⟨12, 0⟩, ⟨9, 0⟩, ⟨115, 1⟩, 1000⟩) := by
  have h := C3_spec "k".data ⟨[("2024-01-03".data, cDaily)]⟩ 7 [cRow] "AAPL".data (by decide)
  exact ⟨h.1, h.2.1 ("2024-01-03".data, cDaily) (by decide)
    ⟨⟨10, 0⟩, ⟨12, 0⟩, ⟨9, 0⟩, ⟨115, 1⟩, 1000⟩ (by decide) (by decide)⟩

/-- Claim C4: a parse failure on any single field of a date skips exactly
that date — the refresh result on a payload containing the bad date
equals, in every component, the result on the payload with that date
removed, so the remaining dates are processed unchanged and the count
includes only successfully written dates; concretely a four-date payload
with one non-numeric volume yields newRecords = 3. -/
theorem C4_spec :
    (∀ (k : GoStr) (now : Nat) (mq : Bool) (P1 P2 : List (GoStr × DailyRaw))
      (d : GoStr) (bad : DailyRaw) (db : List Row) (symbol : GoStr),
      parseDaily bad = none →
      fetchAndStoreData ⟨some k, .ok ⟨P1 ++ (d, bad) :: P2⟩, mq, now⟩ db symbol
        = fetchAndStoreData ⟨some k, .ok ⟨P1 ++ P2⟩, mq, now⟩ db symbol)
    ∧ (fetchAndStoreData ⟨some "k".data, .ok ⟨cPayload4⟩, true, 7⟩ [] "IBM".data).newRecords
        = 3 := by
  constructor
  · intro k now mq P1 P2 d bad db symbol hbad
    cases mq with
    | false => rfl
    | true =>
        have hsl : storeLoop symbol now (maxDate db symbol) (P1 ++ (d, bad) :: P2) db 0
            = storeLoop symbol now (maxDate db symbol) (P1 ++ P2) db 0 := by
          have hfilter :
              (P1 ++ (d, bad) :: P2).filter (goodEntry (maxDate db symbol))
                = (P1 ++ P2).filter (goodEntry (maxDate db symbol)) := by
            have hg : goodEntry (maxDate db symbol) (d, bad) = false := by
              simp [goodEntry, hbad]
            simp [List.filter_append, List.filter_cons, hg]
          rw [storeLoop_eq, storeLoop_eq, hfilter]
        show (⟨(storeLoop symbol now (maxDate db symbol) (P1 ++ (d, bad) :: P2) db 0).1,
               (storeLoop symbol now (maxDate db symbol) (P1 ++ (d, bad) :: P2) db 0).2, none,
               ⟨1, 1, (storeLoop symbol now (maxDate db symbol) (P1 ++ (d, bad) :: P2) db 0).2⟩⟩
              : RefreshResult)
            = ⟨(storeLoop symbol now (maxDate db symbol) (P1 ++ P2) db 0).1,
               (storeLoop symbol now (maxDate db symbol) (P1 ++ P2) db 0).2, none,
               ⟨1, 1, (storeLoop symbol now (maxDate db symbol) (P1 ++ P2) db 0).2⟩⟩
        rw [hsl]
  · decide

/-- Witness for C4 at a concrete input: removing a bad-volume date from a
two-date payload does not change the refresh outcome. -/
theorem C4_witness :
    fetchAndStoreData
        ⟨some "k".data,
         .ok ⟨[("2024-01-01".data, cDaily), ("2024-01-02".data, cBadDaily)]⟩, true, 7⟩
        [] "IBM".data
      = fetchAndStoreData ⟨some "k".data, .ok ⟨[("2024-01-01".data, cDaily)]⟩, true, 7⟩
        [] "IBM".data :=
  C4_spec.1 "k".data 7 true [("2024-01-01".data, cDaily)] [] "2024-01-02".data cBadDaily
    [] "IBM".data (by decide)

theorem second_pass_skips (symbol : GoStr) (now1 : Nat) (data : TimeSeriesResponse)
    (db : List Row) :
    ∀ e ∈ data.TimeSeriesDaily,
      ¬goodEntry (maxDate ((data.TimeSeriesDaily.filter (goodEntry (maxDate db symbol))).foldl
          (applyEntry symbol now1) db) symbol) e = true := by
  intro e he hg
  simp only [goodEntry, Bool.and_eq_true, Bool.not_eq_true'] at hg
  obtain ⟨hskip1, hps⟩ := hg
  by_cases hskip0 : skipDate (maxDate db symbol) e.1 = true
  · cases hm0 : maxDate db symbol with
    | none =>
        rw [hm0] at hskip0
        simp [skipDate] at hskip0
    | some m0 =>
        rw [hm0] at hskip0
        have hle : e.1 ≤ m0 := by
          unfold skipDate at hskip0
          simpa using hskip0
        obtain ⟨m1, hm1, h01⟩ := maxDate_foldl symbol now1
          (data.TimeSeriesDaily.filter (goodEntry (maxDate db symbol))) db symbol m0 hm0
        rw [hm1] at hskip1
        have hnle : ¬e.1 ≤ m1 := by
          unfold skipDate at hskip1
          simpa using hskip1
        exact hnle (le_trans hle h01)
  · have hsk0 : skipDate (maxDate db symbol) e.1 = false := by
      cases hx : skipDate (maxDate db symbol) e.1
      · rfl
      · exact absurd hx hskip0
    have hgood0 : goodEntry (maxDate db symbol) e = true := by
      simp [goodEntry, hsk0, hps]
    have hmemf : e ∈ data.TimeSeriesDaily.filter (goodEntry (maxDate db symbol)) :=
      List.mem_filter.mpr ⟨he, hgood0⟩
    have hpres := lookupRow_foldl_present symbol now1
      (data.TimeSeriesDaily.filter (goodEntry (maxDate db symbol))) db e hmemf hps
    obtain ⟨m1, hm1, hle1⟩ := lookupRow_isSome_maxDate _ e.1 symbol hpres
    rw [hm1] at hskip1
    have hnle : ¬e.1 ≤ m1 := by
      unfold skipDate at hskip1
      simpa using hskip1
    exact hnle hle1

/-- Claim C5: refreshing a symbol twice with an identical upstream payload
leaves the stored rows after the second pass equal to the rows after the
first pass (even with a different clock on the second pass), and a refresh
never introduces duplicate (date, symbol) keys. -/
theorem C5_spec (k : GoStr) (data : TimeSeriesResponse) (now1 now2 : Nat)
    (db : List Row) (symbol : GoStr) :
    ((fetchAndStoreData ⟨some k, .ok data, true, now2⟩
        (fetchAndStoreData ⟨some k, .ok data, true, now1⟩ db symbol).db symbol).db
      = (fetchAndStoreData ⟨some k, .ok data, true, now1⟩ db symbol).db)
    ∧ ((keys db).Nodup →
        (keys (fetchAndStoreData ⟨some k, .ok data, true, now1⟩ db symbol).db).Nodup) := by
  constructor
  · rw [fetchAndStoreData_ok_db k data now1 db symbol]
    rw [fetchAndStoreData_ok_db k data now2 _ symbol]
    rw [List.filter_eq_nil_iff.mpr (second_pass_skips symbol now1 data db)]
    rfl
  · exact fun h => keys_fetchAndStoreData ⟨some k, .ok data, true, now1⟩ db symbol h

/-- Witness for C5 at a concrete input: a second refresh with the same
one-date payload (and a later clock) leaves the table of the first refresh
unchanged, and the keys stay duplicate-free. -/
theorem C5_witness :
    ((fetchAndStoreData ⟨some "k".data, .ok ⟨[("2024-01-03".data, cDaily)]⟩, true, 9⟩
        (fetchAndStoreData cEnv [cRow] "AAPL".data).db "AAPL".data).db
      = (fetchAndStoreData cEnv [cRow] "AAPL".data).db)
    ∧ (keys (fetchAndStoreData cEnv [cRow] "AAPL".data).db).Nodup :=
  ⟨(C5_spec "k".data ⟨[("2024-01-03".data, cDaily)]⟩ 7 9 [cRow] "AAPL".data).1,
   (C5_spec "k".data ⟨[("2024-01-03".data, cDaily)]⟩ 7 9 [cRow] "AAPL".data).2 (by decide)⟩

end StocksBackend
